import Mathlib

/-
Verification of the Job Reconciliation and Incident Lifecycle Engine of the
cl_jobs repository.  The Python sources are shallowly embedded: dictionaries
become association lists, `time.time()` becomes an explicit `Nat` argument,
remote calls become boolean oracles, and the regular expressions of
`utils/bridge_ops.py` are embedded as explicit scanning functions over
`List Char` with the exact leftmost / non-greedy / no-newline semantics of
Python's `re.search` and `re.findall` on those concrete patterns.
-/

namespace ClJobs

/-! String helpers mirroring the Python primitives used by the sources:
`str.lower`, `str.upper`, substring test (`a in b`), and `str.split()`. -/

def pyLower (s : List Char) : List Char := s.map Char.toLower

def pyUpper (s : String) : String := String.mk (s.data.map Char.toUpper)

def startsWithChars : List Char → List Char → Bool
  | [], _ => true
  | _ :: _, [] => false
  | a :: as, b :: bs => if a = b then startsWithChars as bs else false

def containsSub (needle : List Char) : List Char → Bool
  | [] => needle.isEmpty
  | c :: rest => startsWithChars needle (c :: rest) || containsSub needle rest

def splitWsAux : List Char → List Char → List (List Char)
  | cur, [] => if cur = [] then [] else [cur.reverse]
  | cur, c :: rest =>
    if c.isWhitespace then
      (if cur = [] then splitWsAux [] rest else cur.reverse :: splitWsAux [] rest)
    else splitWsAux (c :: cur) rest

def splitWs (l : List Char) : List (List Char) := splitWsAux [] l

/-! Embedding of the two regular expressions of `parse_bridge_error`
(src/utils/bridge_ops.py lines 277-302).

`re.search(r'asked for \[(.*?)\]', msg)` matches at the leftmost occurrence of
the literal "asked for [" that is followed by a ']' with no newline in
between ('.' does not match newline without DOTALL); the non-greedy group
captures up to the first such ']'.  `captureNoNl` returns the group at one
candidate position, `searchBracket` scans positions left to right. -/

def captureNoNl : List Char → Option (List Char)
  | [] => none
  | c :: rest =>
    if c = ']' then some []
    else if c = '\n' then none
    else (captureNoNl rest).map (fun g => c :: g)

def searchBracket (lit : List Char) : List Char → Option (List Char)
  | [] => none
  | c :: rest =>
    if startsWithChars lit (c :: rest) then
      match captureNoNl ((c :: rest).drop lit.length) with
      | some g => some g
      | none => searchBracket lit rest
    else searchBracket lit rest

def askedForLit : List Char := "asked for [".data

def existsListLit : List Char := "exists [".data

def bridgeDashLit : List Char := "bridge-".data

/-- Embedding of `re.findall(r'\x7b(bridge-[^\s]+)', text)`: every
non-overlapping match of a literal brace followed by "bridge-" and a maximal
nonempty run of non-whitespace characters; the capture drops the brace.  The
first (Nat) argument counts characters still inside the previous match, which
the scan must skip without testing (non-overlapping semantics). -/
def findallBridgeAux : Nat → List Char → List (List Char)
  | _ + 1, [] => []
  | Nat.succ k, _ :: rest => findallBridgeAux k rest
  | 0, [] => []
  | 0, c :: rest =>
    if c = '\x7b' && startsWithChars bridgeDashLit rest then
      let tok := (rest.drop bridgeDashLit.length).takeWhile (fun ch => !ch.isWhitespace)
      if tok = [] then findallBridgeAux 0 rest
      else (bridgeDashLit ++ tok) :: findallBridgeAux (bridgeDashLit.length + tok.length) rest
    else findallBridgeAux 0 rest

/-- Embedding of `parse_bridge_error` (src/utils/bridge_ops.py lines 277-302):
extract the "asked for [...]" space-delimited list (each piece `.strip()`ed,
which is the identity after `str.split()`), and the `bridge-*` tokens of the
"exists [...]" list.  A list that cannot be found yields `[]`, exactly as the
Python initialisers do. -/
def parse_bridge_error (error_message : String) : List String × List String :=
  let required := match searchBracket askedForLit error_message.data with
    | some g => (splitWs g).map String.mk
    | none => []
  let existing := match searchBracket existsListLit error_message.data with
    | some g => (findallBridgeAux 0 g).map String.mk
    | none => []
  (required, existing)

/-- The missing-bridge computation of `create_missing_bridges`
(src/utils/bridge_ops.py line 438):
`missing_bridges = [b for b in required_bridges if b not in existing_bridges]`. -/
def missingBridgesOf (error_message : String) : List String :=
  (parse_bridge_error error_message).1.filter
    (fun b => decide (b ∉ (parse_bridge_error error_message).2))

/-! Incident Store (src/cl_jobs.py lines 177-246).  The JSON document
`open_incidents.json` maps a scope key "{service}_{network}" to either the
current per-job record mapping or a legacy plain list of job ids.  JSON
objects have unique keys, so Python dicts are embedded as association lists,
looked up at the first occurrence; `time.time()` is an explicit `Nat`. -/

structure IncidentRecord where
  error : Option String
  first_seen : Nat
  last_seen : Nat
deriving DecidableEq

inductive ScopeEntry where
  | legacy (ids : List String)
  | recMap (entries : List (String × IncidentRecord))
deriving DecidableEq

abbrev IncidentStore := List (String × ScopeEntry)

def incidentKey (service network : String) : String := service ++ "_" ++ network

def lookupScope : IncidentStore → String → Option ScopeEntry
  | [], _ => none
  | (k, v) :: rest, key => if k = key then some v else lookupScope rest key

def setScope : IncidentStore → String → ScopeEntry → IncidentStore
  | [], key, v => [(key, v)]
  | (k, w) :: rest, key, v =>
    if k = key then (key, v) :: rest else (k, w) :: setScope rest key v

def dropScope : IncidentStore → String → IncidentStore
  | [], _ => []
  | (k, w) :: rest, key =>
    if k = key then dropScope rest key else (k, w) :: dropScope rest key

def lookupJob : List (String × IncidentRecord) → String → Option IncidentRecord
  | [], _ => none
  | (i, r) :: rest, j => if i = j then some r else lookupJob rest j

def hasJob (m : List (String × IncidentRecord)) (j : String) : Bool :=
  (lookupJob m j).isSome

def eraseJob (m : List (String × IncidentRecord)) (j : String) :
    List (String × IncidentRecord) :=
  m.filter (fun e => decide (e.1 ≠ j))

def updateJob (m : List (String × IncidentRecord)) (j : String)
    (err : Option String) (now : Nat) : List (String × IncidentRecord) :=
  m.map (fun e =>
    if e.1 = j then (e.1, { e.2 with error := err, last_seen := now }) else e)

/-- Legacy-format upgrade of `track_incident` (src/cl_jobs.py lines 199-207):
each job id of the old list becomes a record with error None and the current
read time as both timestamps. -/
def legacyToMap (ids : List String) (now : Nat) : List (String × IncidentRecord) :=
  ids.map (fun i => (i, ⟨none, now, now⟩))

/-- Embedding of `track_incident` (src/cl_jobs.py lines 177-228).  Returns
`(is_new_incident, new store)`; the load / save of the backing file around
the mutation is the identity on the in-memory document. -/
def track_incident (now : Nat) (store : IncidentStore)
    (service network job_id : String) (error_msg : Option String) :
    Bool × IncidentStore :=
  let key := incidentKey service network
  match lookupScope store key with
  | none =>
      (true, setScope store key (.recMap [(job_id, ⟨error_msg, now, now⟩)]))
  | some entry =>
      let m := match entry with
        | .legacy ids => legacyToMap ids now
        | .recMap m => m
      if hasJob m job_id then
        (false, setScope store key (.recMap (updateJob m job_id error_msg now)))
      else
        (true, setScope store key (.recMap (m ++ [(job_id, ⟨error_msg, now, now⟩)])))

/-- Embedding of `remove_incident` (src/cl_jobs.py lines 230-246).  `none`
models the raised `TypeError` of `incidents[key].pop(job_id)` when the scope
entry is still the legacy list shape and contains `job_id` (`list.pop`
requires an integer index); every other path returns the resulting store. -/
def remove_incident (store : IncidentStore) (service network job_id : String) :
    Option IncidentStore :=
  let key := incidentKey service network
  match lookupScope store key with
  | none => some store
  | some (.legacy ids) => if job_id ∈ ids then none else some store
  | some (.recMap m) =>
      if hasJob m job_id then
        let m2 := eraseJob m job_id
        if m2 = [] then some (dropScope store key)
        else some (setScope store key (.recMap m2))
      else some store

/-- The triple (service, network, job_id) is not currently tracked: its scope
key is absent, or present without that job id (in either entry shape). -/
def notTracked (store : IncidentStore) (service network job_id : String) : Prop :=
  match lookupScope store (incidentKey service network) with
  | none => True
  | some (.legacy ids) => job_id ∉ ids
  | some (.recMap m) => hasJob m job_id = false

/-- Record lookup through the store: the record of `job_id` inside the
(current-shape) scope entry of `key`, if any. -/
def lookupJobIn (store : IncidentStore) (key job_id : String) :
    Option IncidentRecord :=
  match lookupScope store key with
  | some (.recMap m) => lookupJob m job_id
  | _ => none

/-! Persistence model of `save_open_incidents` (src/cl_jobs.py lines 128-175).
The code writes the document to a `NamedTemporaryFile` in the target
directory, flushes and fsyncs it, then opens the target with mode "w" (which
truncates it in place) and runs `shutil.copy2(temp, target)` under an
exclusive flock.  The successive contents of the target file along that
sequence are: unchanged while only the temp file is written and synced,
empty right after the truncating open, and a prefix of the new document while
`copy2` is writing (all of the document once it finishes).  A crash can stop
the sequence at any point, after which the advisory lock is gone and a reader
sees the content as of that point. -/
def targetDuringSave (old doc : List Char) : List (List Char) :=
  [old, old] ++ (List.range (doc.length + 1)).map (fun k => doc.take k)

/-- Modelled from the spec: "writes compose the new full document, write it
to a temporary file in the same directory, flush and force it to stable
storage, then atomically replace the target file".  Under an atomic replace
the target only ever holds the old or the new document. -/
def atomicReplaceStates (old doc : List Char) : List (List Char) := [old, doc]

/-! Criteria Matcher for the cancel command
(src/commands/cancel_cmd.py lines 151-215) and its caller `execute`
(lines 79-133). -/

structure Job where
  id : String
  name : String
  status : String
  latestSpecId : Option String
deriving DecidableEq

structure CancelAction where
  specId : String
  jobName : String
  identifier : String
  reason : String
deriving DecidableEq

inductive MatchKind where
  | byId
  | byFeed
  | byPat
deriving DecidableEq

/-- Python `set.add`: membership-preserving insert. -/
def addSet (s : List String) (x : String) : List String :=
  if x ∈ s then s else s ++ [x]

def unionSet (s : List String) (t : List String) : List String :=
  t.foldl addSet s

/-- Rule (a) of `get_jobs_to_cancel` (lines 182-184):
`if job_id and job_id_value == job_id` — a provided, non-empty `--job-id`
equal to the job's id. -/
def jobIdRule (jobIdArg : Option String) (job : Job) : Option (String × String) :=
  match jobIdArg with
  | some jid => if jid ≠ "" ∧ job.id = jid then some (jid, "job ID " ++ jid) else none
  | none => none

/-- Rule (b) (lines 187-193): the first feed id whose lowercase form is a
substring of the lowercase job name (the original-case feed id is recorded). -/
def firstFeedMatch (feedIds : List String) (jobName : String) : Option String :=
  feedIds.find? (fun f => containsSub (pyLower f.data) (pyLower jobName.data))

/-- Rule (c) (lines 196-202): the first pattern whose lowercase form is a
substring of the lowercase job name. -/
def firstPatMatch (pats : List String) (jobName : String) : Option String :=
  pats.find? (fun p => containsSub (pyLower p.data) (pyLower jobName.data))

/-- The per-job match decision of `get_jobs_to_cancel` (lines 181-202):
explicit job id first, then feed ids (skipped entirely when the explicit id
matched), then patterns (only when nothing matched yet).  Returns the rule
kind, the matched identifier and the recorded match reason. -/
def matchJob (jobIdArg : Option String) (feedIds pats : List String) (job : Job) :
    Option (MatchKind × String × String) :=
  match jobIdRule jobIdArg job with
  | some (ident, r) => some (.byId, ident, r)
  | none =>
    match firstFeedMatch feedIds job.name with
    | some f => some (.byFeed, f, "feed ID " ++ f)
    | none =>
      match firstPatMatch pats job.name with
      | some p => some (.byPat, p, "pattern \x27" ++ p ++ "\x27")
      | none => none

structure CancelAcc where
  actions : List CancelAction
  matchedFeeds : List String
  matchedPats : List String
deriving DecidableEq

/-- One iteration of the job loop of `get_jobs_to_cancel` (lines 171-210):
non-APPROVED jobs are skipped; the matched identifier is added to the
corresponding matched set at match time; the action is appended only when the
job has a latest spec id (otherwise a warning is printed and it is skipped). -/
def cancelStep (jobIdArg : Option String) (feedIds pats : List String)
    (acc : CancelAcc) (job : Job) : CancelAcc :=
  if job.status ≠ "APPROVED" then acc
  else
    match matchJob jobIdArg feedIds pats job with
    | none => acc
    | some (k, ident, r) =>
      let acc1 := match k with
        | .byId => acc
        | .byFeed => { acc with matchedFeeds := addSet acc.matchedFeeds ident }
        | .byPat => { acc with matchedPats := addSet acc.matchedPats ident }
      match job.latestSpecId with
      | some sid => { acc1 with actions := acc1.actions ++ [⟨sid, job.name, ident, r⟩] }
      | none => acc1

/-- Python's stable `list.sort(key=...)` as an insertion sort: a new element
goes after every element whose key is not greater. -/
def insertSorted {α : Type} (keyOf : α → String) : List α → α → List α
  | [], a => [a]
  | b :: bs, a =>
    if keyOf b ≤ keyOf a then b :: insertSorted keyOf bs a else a :: b :: bs

def sortByKey {α : Type} (keyOf : α → String) (l : List α) : List α :=
  l.foldl (insertSorted keyOf) []

/-- Embedding of `get_jobs_to_cancel` (src/commands/cancel_cmd.py lines
151-215): the sorted action list plus the matched feed-id and pattern sets. -/
def get_jobs_to_cancel (jobs : List Job) (feedIds pats : List String)
    (jobIdArg : Option String) : List CancelAction × List String × List String :=
  let acc := jobs.foldl (cancelStep jobIdArg feedIds pats) ⟨[], [], []⟩
  (sortByKey CancelAction.jobName acc.actions, acc.matchedFeeds, acc.matchedPats)

structure ExecAcc where
  allActions : List CancelAction
  allMatchedFeeds : List String
  allMatchedPats : List String
deriving DecidableEq

/-- One iteration of the feeds-manager loop of `execute`
(src/commands/cancel_cmd.py lines 82-95): extend the action list
(`all_jobs_to_cancel.extend`) and union the matched sets into the global
sets (`all_matched_feed_ids.update`, `all_matched_patterns.update`). -/
def execStep (feedIds pats : List String) (jobIdArg : Option String)
    (acc : ExecAcc) (jobs : List Job) : ExecAcc :=
  let r := get_jobs_to_cancel jobs feedIds pats jobIdArg
  ⟨acc.allActions ++ r.1, unionSet acc.allMatchedFeeds r.2.1,
    unionSet acc.allMatchedPats r.2.2⟩

/-- The feeds-manager loop of `execute` (src/commands/cancel_cmd.py lines
79-115) over all scopes. -/
def executeScopes (scopes : List (List Job)) (feedIds pats : List String)
    (jobIdArg : Option String) : ExecAcc :=
  scopes.foldl (execStep feedIds pats jobIdArg) ⟨[], [], []⟩

/-- The global unmatched report of `execute` (lines 117-119): criteria never
seen in the aggregated matched set. -/
def unmatchedReport (criteria matched : List String) : List String :=
  criteria.filter (fun f => decide (f ∉ matched))

/-! Reapprove selection (src/cl_reapprove_jobs.py lines 236-264) and the
aggregation of its __main__ block (lines 336-370). -/

structure ReapproveAction where
  specId : String
  jobName : String
  feedId : String
  jobId : String
deriving DecidableEq

/-- One iteration of the job loop of `get_jobs_to_reapprove` (lines 243-256):
for a CANCELLED/CANCELED job, every matching feed id appends an action (there
is no break), and the feed id is recorded as matched only inside the
latest-spec branch. -/
def reapproveStep (feedIds : List String)
    (acc : List ReapproveAction × List String) (job : Job) :
    List ReapproveAction × List String :=
  if pyUpper job.status = "CANCELLED" ∨ pyUpper job.status = "CANCELED" then
    feedIds.foldl
      (fun acc2 f =>
        if containsSub (pyLower f.data) (pyLower job.name.data) then
          match job.latestSpecId with
          | some sid => (acc2.1 ++ [⟨sid, job.name, f, job.id⟩], addSet acc2.2 f)
          | none => acc2
        else acc2)
      acc
  else acc

/-- Embedding of `get_jobs_to_reapprove` (src/cl_reapprove_jobs.py lines
236-264): sorted action list plus the per-call unmatched feed-id list. -/
def get_jobs_to_reapprove (jobs : List Job) (feedIds : List String) :
    List ReapproveAction × List String :=
  let p := jobs.foldl (reapproveStep feedIds) ([], [])
  (sortByKey ReapproveAction.jobName p.1,
    feedIds.filter (fun f => decide (f ∉ p.2)))

/-- Python `list(set(l))`: deduplication keeping one occurrence of each
element (order is irrelevant to the claims, only membership is used). -/
def dedupSet (l : List String) : List String := l.foldl addSet []

/-- The unmatched aggregation of the reapprove __main__ block
(src/cl_reapprove_jobs.py lines 337-370): the per-scope unmatched lists are
concatenated (`all_unmatched_feed_ids.extend(unmatched_feed_ids)`) and then
deduplicated (`list(set(...))`). -/
def reapprove_all_unmatched (scopes : List (List Job)) (feedIds : List String) :
    List String :=
  dedupSet (scopes.foldl
    (fun acc jobs => acc ++ (get_jobs_to_reapprove jobs feedIds).2) [])

/-! Bridge repair and retry (src/cl_jobs.py `approve_jobs` lines 296-411,
src/utils/bridge_ops.py `create_missing_bridges` lines 393-489).  The remote
create-bridge call becomes the oracle `createOk`, the per-node configuration
becomes the `bridgeGroups` list and the `consolidated` name-to-url mapping. -/

def lookupStr : List (String × String) → String → Option String
  | [], _ => none
  | (k, v) :: rest, key => if k = key then some v else lookupStr rest key

/-- The bridges successfully created by the loop of `create_missing_bridges`
(lines 471-488): missing bridges found in the consolidated configuration
whose create call succeeded. -/
def createdBridgesOf (error_message : String)
    (consolidated : List (String × String)) (createOk : String → Bool) :
    List String :=
  (missingBridgesOf error_message).filter
    (fun b => (lookupStr consolidated b).isSome && createOk b)

/-- Embedding of `create_missing_bridges` (src/utils/bridge_ops.py lines
393-489): returns False when the required list is unparseable (empty), when
nothing is missing, when the node has no bridge groups or no consolidated
bridges, and otherwise True exactly when every missing bridge was created
(`success_count == len(missing_bridges)`). -/
def create_missing_bridges (error_message : String) (bridgeGroups : List String)
    (consolidated : List (String × String)) (createOk : String → Bool) : Bool :=
  if (parse_bridge_error error_message).1 = [] then false
  else if missingBridgesOf error_message = [] then false
  else if bridgeGroups = [] then false
  else if consolidated = [] then false
  else decide ((createdBridgesOf error_message consolidated createOk).length
      = (missingBridgesOf error_message).length)

def bridgeErrMarker : String := "bridge check: not all bridges exist"

/-- The environment of one job inside the loop of `approve_jobs`: the result
of the first approve call, the error text of a failed first call, the bridge
configuration, the create-bridge oracle, and the result of the one retry. -/
structure ApproveEnv where
  firstOk : Bool
  errMsg : String
  bridgeGroups : List String
  consolidated : List (String × String)
  createOk : String → Bool
  retryOk : Bool

structure JobOutcome where
  approved : Bool
  approveCalls : Nat
  repairCalls : Nat
deriving DecidableEq

/-- The control flow of one iteration of `approve_jobs`
(src/cl_jobs.py lines 305-400): approve once; on failure whose error text
contains the bridge-check marker, call `create_missing_bridges` once and, only
if it returned True, retry the approval exactly once; a failed retry leaves
the job in the failed list (the subsequent `check_bridge_config` call is
purely diagnostic and creates nothing).  `approveCalls` counts
`approve_job` calls, `repairCalls` counts `create_missing_bridges` calls. -/
def processJob (env : ApproveEnv) : JobOutcome :=
  if env.firstOk then ⟨true, 1, 0⟩
  else if containsSub bridgeErrMarker.data env.errMsg.data then
    if create_missing_bridges env.errMsg env.bridgeGroups env.consolidated env.createOk then
      if env.retryOk then ⟨true, 2, 1⟩ else ⟨false, 2, 1⟩
    else ⟨false, 1, 1⟩
  else ⟨false, 1, 0⟩

/-! Incident-store calls issued by the notification phase of `approve_jobs`
(src/cl_jobs.py lines 402-409) and the notification functions it calls
(`send_approval_notification` lines 413-437 resolves every approved job,
`send_failure_notification` lines 439-481 tracks every failed job). -/

inductive StoreOp where
  | trackOp (key jobId : String) (err : Option String)
  | resolveOp (key jobId : String)
deriving DecidableEq

def send_approval_notification_ops (service network : String)
    (approved : List Job) : List StoreOp :=
  approved.map (fun j => StoreOp.resolveOp (incidentKey service network) j.id)

def send_failure_notification_ops (service network : String)
    (failed : List (Job × Option String)) : List StoreOp :=
  failed.map (fun jf => StoreOp.trackOp (incidentKey service network) jf.1.id jf.2)

/-- The incident-store operations of the notification phase of `approve_jobs`
(lines 402-409): nothing when `suppress_notifications` is set; otherwise the
resolve calls for the approved jobs (when any) followed by the track calls
for the failed jobs (when any). -/
def approve_jobs_store_ops (service network : String) (approved : List Job)
    (failed : List (Job × Option String)) (suppress : Bool) : List StoreOp :=
  if suppress then []
  else
    (if approved ≠ [] then send_approval_notification_ops service network approved else [])
      ++ (if failed ≠ [] then send_failure_notification_ops service network failed else [])

/-! Helper lemmas about the incident store. -/

theorem lookupScope_setScope_self (st : IncidentStore) (k : String) (v : ScopeEntry) :
    lookupScope (setScope st k v) k = some v := by
  induction st with
  | nil => simp [setScope, lookupScope]
  | cons hd tl ih =>
    obtain ⟨k', v'⟩ := hd
    by_cases h : k' = k <;> simp [setScope, lookupScope, h, ih]

theorem lookupScope_dropScope_self (st : IncidentStore) (k : String) :
    lookupScope (dropScope st k) k = none := by
  induction st with
  | nil => simp [dropScope, lookupScope]
  | cons hd tl ih =>
    obtain ⟨k', v'⟩ := hd
    by_cases h : k' = k <;> simp [dropScope, lookupScope, h, ih]

theorem hasJob_iff_lookupJob (m : List (String × IncidentRecord)) (j : String) :
    hasJob m j = false ↔ lookupJob m j = none := by
  cases h : lookupJob m j <;> simp [hasJob, h]

theorem lookupJob_append_self (m : List (String × IncidentRecord)) (j : String)
    (r : IncidentRecord) (h : lookupJob m j = none) :
    lookupJob (m ++ [(j, r)]) j = some r := by
  induction m with
  | nil => simp [lookupJob]
  | cons hd tl ih =>
    obtain ⟨i, r'⟩ := hd
    by_cases hij : i = j
    · simp [lookupJob, hij] at h
    · simp [lookupJob, hij] at h ⊢
      exact ih h

theorem hasJob_append_self (m : List (String × IncidentRecord)) (j : String)
    (r : IncidentRecord) : hasJob (m ++ [(j, r)]) j = true := by
  induction m with
  | nil => simp [hasJob, lookupJob]
  | cons hd tl ih =>
    obtain ⟨i, r'⟩ := hd
    by_cases hij : i = j <;> simp [hasJob, lookupJob, hij] at ih ⊢
    exact ih

theorem lookupJob_updateJob_self (m : List (String × IncidentRecord)) (j : String)
    (err : Option String) (now : Nat) (r : IncidentRecord)
    (h : lookupJob m j = some r) :
    lookupJob (updateJob m j err now) j = some ⟨err, r.first_seen, now⟩ := by
  induction m with
  | nil => simp [lookupJob] at h
  | cons hd tl ih =>
    obtain ⟨i, r'⟩ := hd
    by_cases hij : i = j
    · subst hij
      have hr : r' = r := by simpa [lookupJob] using h
      subst hr
      simp only [updateJob, List.map_cons, eq_self_iff_true, if_true]
      simp [lookupJob]
    · have h' : lookupJob tl j = some r := by simpa [lookupJob, hij] using h
      simp only [updateJob, List.map_cons]
      simp only [hij, if_false]
      simp only [lookupJob, hij, if_false]
      simpa [updateJob] using ih h'

theorem lookupJob_legacyToMap (ids : List String) (now : Nat) (j : String)
    (h : j ∉ ids) : lookupJob (legacyToMap ids now) j = none := by
  induction ids with
  | nil => simp [legacyToMap, lookupJob]
  | cons i rest ih =>
    simp only [List.mem_cons, not_or] at h
    simp [legacyToMap, lookupJob, Ne.symm h.1]
    simpa [legacyToMap] using ih h.2

theorem lookupJob_eraseJob_self (m : List (String × IncidentRecord)) (j : String) :
    lookupJob (eraseJob m j) j = none := by
  induction m with
  | nil => simp [eraseJob, lookupJob]
  | cons hd tl ih =>
    obtain ⟨i, r⟩ := hd
    by_cases hij : i = j <;> simp [eraseJob, lookupJob, hij] at ih ⊢ <;>
      simpa [eraseJob] using ih

/-- A first `track_incident` call on an untracked triple returns True and
stores the record (error, now, now); the scope entry afterwards is in the
current mapping shape and contains the job. -/
theorem track_incident_new (store : IncidentStore) (s n j : String)
    (e : Option String) (t : Nat) (hnt : notTracked store s n j) :
    (track_incident t store s n j e).1 = true ∧
    lookupJobIn (track_incident t store s n j e).2 (incidentKey s n) j
      = some ⟨e, t, t⟩ ∧
    (∃ m, lookupScope (track_incident t store s n j e).2 (incidentKey s n)
        = some (.recMap m) ∧ hasJob m j = true ∧ lookupJob m j = some ⟨e, t, t⟩) := by
  unfold notTracked at hnt
  cases hsc : lookupScope store (incidentKey s n) with
  | none =>
    have ht : track_incident t store s n j e
        = (true, setScope store (incidentKey s n) (.recMap [(j, ⟨e, t, t⟩)])) := by
      simp [track_incident, hsc]
    rw [ht]
    refine ⟨rfl, ?_, ?_⟩
    · simp [lookupJobIn, lookupScope_setScope_self, lookupJob]
    · exact ⟨_, lookupScope_setScope_self .., by simp [hasJob, lookupJob],
        by simp [lookupJob]⟩
  | some entry =>
    rw [hsc] at hnt
    cases entry with
    | legacy ids =>
      have hl : lookupJob (legacyToMap ids t) j = none := lookupJob_legacyToMap ids t j hnt
      have hh : hasJob (legacyToMap ids t) j = false := (hasJob_iff_lookupJob _ _).mpr hl
      have hlook : lookupJob (legacyToMap ids t ++ [(j, ⟨e, t, t⟩)]) j = some ⟨e, t, t⟩ :=
        lookupJob_append_self _ _ _ hl
      have ht : track_incident t store s n j e
          = (true, setScope store (incidentKey s n)
              (.recMap (legacyToMap ids t ++ [(j, ⟨e, t, t⟩)]))) := by
        simp [track_incident, hsc, hh]
      rw [ht]
      refine ⟨rfl, ?_, ?_⟩
      · simp [lookupJobIn, lookupScope_setScope_self, hlook]
      · exact ⟨_, lookupScope_setScope_self .., hasJob_append_self _ _ _, hlook⟩
    | recMap m =>
      have hl : lookupJob m j = none := (hasJob_iff_lookupJob _ _).mp hnt
      have hlook : lookupJob (m ++ [(j, ⟨e, t, t⟩)]) j = some ⟨e, t, t⟩ :=
        lookupJob_append_self _ _ _ hl
      have ht : track_incident t store s n j e
          = (true, setScope store (incidentKey s n)
              (.recMap (m ++ [(j, ⟨e, t, t⟩)]))) := by
        simp [track_incident, hsc, hnt]
      rw [ht]
      refine ⟨rfl, ?_, ?_⟩
      · simp [lookupJobIn, lookupScope_setScope_self, hlook]
      · exact ⟨_, lookupScope_setScope_self .., hasJob_append_self _ _ _, hlook⟩

/-- A `track_incident` call on a tracked triple returns False, refreshes the
error text and `last_seen`, and preserves `first_seen`. -/
theorem track_incident_existing (store : IncidentStore) (s n j : String)
    (e : Option String) (t : Nat) (m : List (String × IncidentRecord))
    (r : IncidentRecord)
    (hm : lookupScope store (incidentKey s n) = some (.recMap m))
    (hr : lookupJob m j = some r) :
    (track_incident t store s n j e).1 = false ∧
    lookupJobIn (track_incident t store s n j e).2 (incidentKey s n) j
      = some ⟨e, r.first_seen, t⟩ := by
  have hh : hasJob m j = true := by simp [hasJob, hr]
  have ht : track_incident t store s n j e
      = (false, setScope store (incidentKey s n) (.recMap (updateJob m j e t))) := by
    simp [track_incident, hm, hh]
  rw [ht]
  exact ⟨rfl, by
    simp [lookupJobIn, lookupScope_setScope_self, lookupJob_updateJob_self m j e t r hr]⟩

/-- Regardless of the starting state — scope absent, legacy list with or
without the job, current mapping with or without the job — after
`track_incident` the scope entry is in the current mapping shape and
contains the job id. -/
theorem track_incident_scope (store : IncidentStore) (s n j : String)
    (e : Option String) (t : Nat) :
    ∃ m1, lookupScope (track_incident t store s n j e).2 (incidentKey s n)
        = some (.recMap m1) ∧ hasJob m1 j = true := by
  cases hsc : lookupScope store (incidentKey s n) with
  | none =>
    have ht : track_incident t store s n j e
        = (true, setScope store (incidentKey s n) (.recMap [(j, ⟨e, t, t⟩)])) := by
      simp [track_incident, hsc]
    rw [ht]
    exact ⟨_, lookupScope_setScope_self .., by simp [hasJob, lookupJob]⟩
  | some entry =>
    cases entry with
    | legacy ids =>
      by_cases hh : hasJob (legacyToMap ids t) j
      · obtain ⟨r, hr⟩ := Option.isSome_iff_exists.mp (by simpa [hasJob] using hh)
        have ht : track_incident t store s n j e
            = (false, setScope store (incidentKey s n)
                (.recMap (updateJob (legacyToMap ids t) j e t))) := by
          simp [track_incident, hsc, hh]
        rw [ht]
        exact ⟨_, lookupScope_setScope_self .., by
          simp [hasJob, lookupJob_updateJob_self (legacyToMap ids t) j e t r hr]⟩
      · have ht : track_incident t store s n j e
            = (true, setScope store (incidentKey s n)
                (.recMap (legacyToMap ids t ++ [(j, ⟨e, t, t⟩)]))) := by
          simp [track_incident, hsc, hh]
        rw [ht]
        exact ⟨_, lookupScope_setScope_self .., hasJob_append_self _ _ _⟩
    | recMap m =>
      by_cases hh : hasJob m j
      · obtain ⟨r, hr⟩ := Option.isSome_iff_exists.mp (by simpa [hasJob] using hh)
        have ht : track_incident t store s n j e
            = (false, setScope store (incidentKey s n)
                (.recMap (updateJob m j e t))) := by
          simp [track_incident, hsc, hh]
        rw [ht]
        exact ⟨_, lookupScope_setScope_self .., by
          simp [hasJob, lookupJob_updateJob_self m j e t r hr]⟩
      · have ht : track_incident t store s n j e
            = (true, setScope store (incidentKey s n)
                (.recMap (m ++ [(j, ⟨e, t, t⟩)]))) := by
          simp [track_incident, hsc, hh]
        rw [ht]
        exact ⟨_, lookupScope_setScope_self .., hasJob_append_self _ _ _⟩

/-- `remove_incident` on an untracked triple is the identity. -/
theorem remove_incident_notTracked (store : IncidentStore) (s n j : String)
    (hnt : notTracked store s n j) :
    remove_incident store s n j = some store := by
  unfold notTracked at hnt
  cases hsc : lookupScope store (incidentKey s n) with
  | none => simp [remove_incident, hsc]
  | some entry =>
    rw [hsc] at hnt
    cases entry with
    | legacy ids => simp [remove_incident, hsc, hnt]
    | recMap m => simp [remove_incident, hsc, hnt]

/-- Claim C1: starting from any store in which (service, network, job_id) is
not tracked, two consecutive `track_incident` calls with that triple and any
error texts return is_new = True then is_new = False; the record written by
the first call is (error1, t1, t1), and after the second call the record is
(error2, t1, t2): `first_seen` still equals the value set by the first call
and `last_seen` is strictly greater than the value set by the first call. -/
theorem c1_track_twice_dedup (store : IncidentStore) (s n j : String)
    (e1 e2 : Option String) (t1 t2 : Nat)
    (hnt : notTracked store s n j) (ht : t1 < t2) :
    (track_incident t1 store s n j e1).1 = true ∧
    (track_incident t2 (track_incident t1 store s n j e1).2 s n j e2).1 = false ∧
    lookupJobIn (track_incident t1 store s n j e1).2 (incidentKey s n) j
      = some ⟨e1, t1, t1⟩ ∧
    lookupJobIn (track_incident t2 (track_incident t1 store s n j e1).2 s n j e2).2
        (incidentKey s n) j = some ⟨e2, t1, t2⟩ ∧
    t1 < t2 := by
  obtain ⟨h1, h2, m1, hm1, hh1, hl1⟩ := track_incident_new store s n j e1 t1 hnt
  obtain ⟨h3, h4⟩ :=
    track_incident_existing (track_incident t1 store s n j e1).2 s n j e2 t2 m1
      ⟨e1, t1, t1⟩ hm1 hl1
  exact ⟨h1, h3, h2, h4, ht⟩

/-- Witness for C1 at the concrete scenario of the spec (section 8):
empty store, track("OCR","ETH","job1","boom") at time 0 then
track("OCR","ETH","job1","boom2") at time 1. -/
theorem c1_track_twice_dedup_witness :
    (track_incident 0 [] "OCR" "ETH" "job1" (some "boom")).1 = true ∧
    (track_incident 1 (track_incident 0 [] "OCR" "ETH" "job1" (some "boom")).2
        "OCR" "ETH" "job1" (some "boom2")).1 = false ∧
    lookupJobIn (track_incident 0 [] "OCR" "ETH" "job1" (some "boom")).2
        (incidentKey "OCR" "ETH") "job1" = some ⟨some "boom", 0, 0⟩ ∧
    lookupJobIn (track_incident 1
          (track_incident 0 [] "OCR" "ETH" "job1" (some "boom")).2
          "OCR" "ETH" "job1" (some "boom2")).2
        (incidentKey "OCR" "ETH") "job1" = some ⟨some "boom2", 0, 1⟩ ∧
    0 < 1 :=
  c1_track_twice_dedup [] "OCR" "ETH" "job1" (some "boom") (some "boom2") 0 1
    (by simp [notTracked, lookupScope]) (by decide)

/-- Claim C2: for every store state, after `track_incident` followed by
`remove_incident` for the same triple the scope mapping no longer contains
the job id, and if the job was the scope's only entry the scope key itself is
gone from the document; `remove_incident` on a key or job id that is not
present is a no-op that returns the store unchanged. -/
theorem c2_resolve_clears_state (store : IncidentStore) (s n j : String)
    (e : Option String) (t : Nat) :
    (notTracked store s n j → remove_incident store s n j = some store) ∧
    ∃ st2, remove_incident (track_incident t store s n j e).2 s n j = some st2 ∧
      lookupJobIn st2 (incidentKey s n) j = none ∧
      (∀ r : IncidentRecord,
        lookupScope (track_incident t store s n j e).2 (incidentKey s n)
          = some (.recMap [(j, r)]) →
        lookupScope st2 (incidentKey s n) = none) := by
  refine ⟨remove_incident_notTracked store s n j, ?_⟩
  obtain ⟨m1, hm1, hh1⟩ := track_incident_scope store s n j e t
  by_cases hz : eraseJob m1 j = []
  · refine ⟨dropScope (track_incident t store s n j e).2 (incidentKey s n), ?_, ?_, ?_⟩
    · simp [remove_incident, hm1, hh1, hz]
    · simp [lookupJobIn, lookupScope_dropScope_self]
    · intro r _
      exact lookupScope_dropScope_self ..
  · refine ⟨setScope (track_incident t store s n j e).2 (incidentKey s n)
        (.recMap (eraseJob m1 j)), ?_, ?_, ?_⟩
    · simp [remove_incident, hm1, hh1, hz]
    · simp [lookupJobIn, lookupScope_setScope_self, lookupJob_eraseJob_self]
    · intro r hr
      rw [hm1] at hr
      have hmr : m1 = [(j, r)] := by simpa using hr
      exact absurd (by simp [hmr, eraseJob]) hz

/-- Witness for C2: empty store, track("OCR","ETH","job1","boom") then
resolve("OCR","ETH","job1"). -/
theorem c2_resolve_clears_state_witness :
    (notTracked [] "OCR" "ETH" "job1" →
      remove_incident [] "OCR" "ETH" "job1" = some []) ∧
    ∃ st2, remove_incident (track_incident 0 [] "OCR" "ETH" "job1" (some "boom")).2
        "OCR" "ETH" "job1" = some st2 ∧
      lookupJobIn st2 (incidentKey "OCR" "ETH") "job1" = none ∧
      (∀ r : IncidentRecord,
        lookupScope (track_incident 0 [] "OCR" "ETH" "job1" (some "boom")).2
            (incidentKey "OCR" "ETH") = some (.recMap [("job1", r)]) →
        lookupScope st2 (incidentKey "OCR" "ETH") = none) :=
  c2_resolve_clears_state [] "OCR" "ETH" "job1" (some "boom") 0

/-- Claim C9, counterexample: in a run with notifications suppressed
(`--suppress-notifications`, a mode `main` passes through to `approve_jobs`),
a successfully approved job triggers no incident-store operation at all —
`send_approval_notification`, which contains the `remove_incident` call, is
never invoked — so the claim that every successful job leads to a resolve
call does not hold of such a run. -/
theorem c9_suppressed_run_skips_resolve :
    approve_jobs_store_ops "OCR" "ETH" [⟨"job1", "feed job", "PENDING", some "s1"⟩]
        [] true = [] ∧
    StoreOp.resolveOp (incidentKey "OCR" "ETH") "job1"
      ∉ approve_jobs_store_ops "OCR" "ETH"
          [⟨"job1", "feed job", "PENDING", some "s1"⟩] [] true := by
  constructor
  · rfl
  · intro h
    simp [approve_jobs_store_ops] at h

/-- Claim C9, amended: in a run where notifications are not suppressed, every
job whose approval succeeded gets a `remove_incident` (resolve) call for its
job id via `send_approval_notification`; and when no incident is open for
that job the call is a harmless no-op leaving the store unchanged. -/
theorem c9_success_resolves (service network : String) (approved : List Job)
    (failed : List (Job × Option String)) (j : Job) (store : IncidentStore)
    (hj : j ∈ approved) (hnt : notTracked store service network j.id) :
    StoreOp.resolveOp (incidentKey service network) j.id
        ∈ approve_jobs_store_ops service network approved failed false ∧
    remove_incident store service network j.id = some store := by
  refine ⟨?_, remove_incident_notTracked store service network j.id hnt⟩
  have hne : approved ≠ [] := List.ne_nil_of_mem hj
  have h1 : StoreOp.resolveOp (incidentKey service network) j.id
      ∈ send_approval_notification_ops service network approved :=
    List.mem_map_of_mem _ hj
  have h2 : approve_jobs_store_ops service network approved failed false
      = send_approval_notification_ops service network approved
        ++ (if failed ≠ [] then send_failure_notification_ops service network failed
            else []) := by
    simp [approve_jobs_store_ops, hne]
  rw [h2]
  exact List.mem_append_left _ h1

/-- Witness for the amended C9: one approved job, no failures, notifications
on, empty incident store. -/
theorem c9_success_resolves_witness :
    StoreOp.resolveOp (incidentKey "OCR" "ETH") "job1"
        ∈ approve_jobs_store_ops "OCR" "ETH"
            [⟨"job1", "feed-x", "PENDING", some "s1"⟩] [] false ∧
    remove_incident [] "OCR" "ETH" "job1" = some [] :=
  c9_success_resolves "OCR" "ETH" [⟨"job1", "feed-x", "PENDING", some "s1"⟩] []
    ⟨"job1", "feed-x", "PENDING", some "s1"⟩ [] (by simp)
    (by simp [notTracked, lookupScope])

/-- Claim C3: `save_open_incidents` opens the target with mode "w" — which
truncates it in place — before `shutil.copy2` has copied anything, and copies
instead of renaming; the write sequence therefore passes through a state
(the empty file) that is neither the old document nor the new one, which is
exactly the half-written state an atomic temp-file rename would rule out
(`atomicReplaceStates`).  A crash between the truncating open and the end of
the copy leaves that state visible to every later reader. -/
theorem c3_truncate_exposes_partial_state :
    ([] : List Char) ∈ targetDuringSave "\x7b\x7d".data "\x7b...\x7d".data ∧
    ([] : List Char) ∉ atomicReplaceStates "\x7b\x7d".data "\x7b...\x7d".data := by
  decide

/-- Claim C5: the cancel command's `execute` aggregates matched identifiers
across feeds-manager scopes before computing the unmatched report, but the
reapprove runner's __main__ block concatenates the per-scope unmatched
lists.  With feed id 0xABC matching a cancelled job in the second scope only,
the second scope's own unmatched list is empty, yet the aggregated reapprove
report still contains 0xABC — the code does what the claim forbids — while
the cancel-side aggregation over the analogous scopes correctly omits it. -/
theorem c5_reapprove_aggregates_per_scope_unmatched :
    (get_jobs_to_reapprove [⟨"77", "ocr feed 0xABC v2", "CANCELLED", some "spec77"⟩]
        ["0xABC"]).2 = [] ∧
    "0xABC" ∈ reapprove_all_unmatched
        [[], [⟨"77", "ocr feed 0xABC v2", "CANCELLED", some "spec77"⟩]] ["0xABC"] ∧
    "0xABC" ∉ unmatchedReport ["0xABC"]
        (executeScopes [[], [⟨"77", "ocr feed 0xABC v2", "APPROVED", some "spec77"⟩]]
            ["0xABC"] [] none).allMatchedFeeds := by
  decide

/-- Claim C6: on the error-text shape of the spec,
`parse_bridge_error` yields required = [bridge-a, bridge-b] and
present = [bridge-a], and the missing-bridge set difference of
`create_missing_bridges` yields exactly [bridge-b]. -/
theorem c6_bridge_diff :
    parse_bridge_error "... asked for [bridge-a bridge-b] ... exists [\x7bbridge-a ...\x7d]"
      = (["bridge-a", "bridge-b"], ["bridge-a"]) ∧
    missingBridgesOf "... asked for [bridge-a bridge-b] ... exists [\x7bbridge-a ...\x7d]"
      = ["bridge-b"] := by
  decide

/-- Claim C7, counterexample: `parse_bridge_error` does not return a distinct
null for an error text in which the "asked for" list cannot be found — it
returns the pair of empty lists, the very same value it returns for a text
whose "asked for" list is found but empty, so there is no "unparseable"
signal distinct from a silent empty result. -/
theorem c7_no_distinct_null :
    parse_bridge_error "approval failed: pipeline error" = ([], []) ∧
    parse_bridge_error "bridge check: not all bridges exist: asked for [], exists []"
      = ([], []) := by
  decide

/-- Claim C7, amended: when the "asked for" list cannot be found,
`parse_bridge_error` returns an empty required list (indistinguishable from a
found-but-empty list) and callers treat that emptiness as the unparseable
signal: `create_missing_bridges` returns False without attempting any
creation, so `approve_jobs` never retries the approval (one approve call,
job stays failed). -/
theorem c7_unparseable_empty_aborts (errMsg : String) (groups : List String)
    (consolidated : List (String × String)) (createOk : String → Bool)
    (env : ApproveEnv)
    (h : searchBracket askedForLit errMsg.data = none)
    (henv : env.errMsg = errMsg) (hfo : env.firstOk = false) :
    (parse_bridge_error errMsg).1 = [] ∧
    create_missing_bridges errMsg groups consolidated createOk = false ∧
    (processJob env).approved = false ∧ (processJob env).approveCalls = 1 := by
  have h1 : (parse_bridge_error errMsg).1 = [] := by simp [parse_bridge_error, h]
  have h2all : ∀ (g : List String) (c : List (String × String)) (ok : String → Bool),
      create_missing_bridges errMsg g c ok = false := by
    intro g c ok
    simp [create_missing_bridges, h1]
  refine ⟨h1, h2all groups consolidated createOk, ?_, ?_⟩ <;>
    by_cases hc : containsSub bridgeErrMarker.data errMsg.data <;>
      simp [processJob, hfo, henv, hc, h2all]

/-- Witness for the amended C7: a plain error text with no bracketed list. -/
theorem c7_unparseable_empty_aborts_witness :
    (parse_bridge_error "node error 123").1 = [] ∧
    create_missing_bridges "node error 123" ["evm"] [("bridge-a", "http-adapter-a")]
        (fun _ => false) = false ∧
    (processJob ⟨false, "node error 123", ["evm"], [("bridge-a", "http-adapter-a")],
        (fun _ => false), false⟩).approved = false ∧
    (processJob ⟨false, "node error 123", ["evm"], [("bridge-a", "http-adapter-a")],
        (fun _ => false), false⟩).approveCalls = 1 :=
  c7_unparseable_empty_aborts "node error 123" ["evm"] [("bridge-a", "http-adapter-a")]
    (fun _ => false)
    ⟨false, "node error 123", ["evm"], [("bridge-a", "http-adapter-a")],
      (fun _ => false), false⟩
    (by decide) rfl rfl

/-- Claim C8, counterexample: `create_missing_bridges` returns True only when
every missing bridge was created (`success_count == len(missing_bridges)`),
not when at least one was.  With bridge-a and bridge-b missing but only
bridge-a configured, the resolver creates one bridge, yet `approve_jobs`
does not retry (a single approve call), contradicting the claim that one
created entry suffices to trigger the retry. -/
theorem c8_partial_creation_no_retry :
    (createdBridgesOf
        "bridge check: not all bridges exist: asked for [bridge-a bridge-b], exists []"
        [("bridge-a", "http-adapter-a")] (fun _ => true)).length = 1 ∧
    processJob ⟨false,
        "bridge check: not all bridges exist: asked for [bridge-a bridge-b], exists []",
        ["evm"], [("bridge-a", "http-adapter-a")], fun _ => true, true⟩
      = ⟨false, 1, 1⟩ := by
  decide

/-- Claim C8, amended: when a failed approval has the bridge-missing error
shape and `create_missing_bridges` reports full success (every missing bridge
created), `approve_jobs` retries the original approval exactly once — two
approve calls, one repair call — and a failed retry leaves the job failed
with no further repair or retry attempt in this run. -/
theorem c8_retry_exactly_once (env : ApproveEnv)
    (h1 : env.firstOk = false)
    (h2 : containsSub bridgeErrMarker.data env.errMsg.data = true)
    (h3 : create_missing_bridges env.errMsg env.bridgeGroups env.consolidated
        env.createOk = true) :
    (processJob env).approveCalls = 2 ∧ (processJob env).repairCalls = 1 ∧
    (env.retryOk = false → processJob env = ⟨false, 2, 1⟩) := by
  by_cases hr : env.retryOk <;> simp [processJob, h1, h2, h3, hr]

/-- Witness for the amended C8: one missing bridge, present in the
consolidated configuration, created successfully; the retry fails. -/
theorem c8_retry_exactly_once_witness :
    (processJob ⟨false,
        "bridge check: not all bridges exist: asked for [bridge-a], exists []",
        ["evm"], [("bridge-a", "http-adapter-a")], (fun _ => true), false⟩).approveCalls
      = 2 ∧
    (processJob ⟨false,
        "bridge check: not all bridges exist: asked for [bridge-a], exists []",
        ["evm"], [("bridge-a", "http-adapter-a")], (fun _ => true), false⟩).repairCalls
      = 1 ∧
    ((false : Bool) = false → processJob ⟨false,
        "bridge check: not all bridges exist: asked for [bridge-a], exists []",
        ["evm"], [("bridge-a", "http-adapter-a")], (fun _ => true), false⟩
      = ⟨false, 2, 1⟩) :=
  c8_retry_exactly_once
    ⟨false, "bridge check: not all bridges exist: asked for [bridge-a], exists []",
      ["evm"], [("bridge-a", "http-adapter-a")], (fun _ => true), false⟩
    rfl (by decide) (by decide)

/-! Helper lemmas about the matcher. -/

theorem mem_addSet (s : List String) (x y : String) :
    x ∈ addSet s y ↔ x = y ∨ x ∈ s := by
  by_cases h : y ∈ s
  · simp only [addSet, if_pos h]
    constructor
    · exact Or.inr
    · rintro (rfl | hx)
      · exact h
      · exact hx
  · simp only [addSet, if_neg h, List.mem_append, List.mem_singleton]
    exact or_comm

theorem mem_unionSet (s t : List String) (x : String) :
    x ∈ unionSet s t ↔ x ∈ s ∨ x ∈ t := by
  induction t generalizing s with
  | nil => simp [unionSet]
  | cons a t ih =>
    show x ∈ unionSet (addSet s a) t ↔ _
    rw [ih, mem_addSet]
    simp [List.mem_cons]
    tauto

theorem mem_insertSorted {α : Type} (keyOf : α → String) (l : List α) (a x : α) :
    x ∈ insertSorted keyOf l a ↔ x = a ∨ x ∈ l := by
  induction l with
  | nil => simp [insertSorted]
  | cons b bs ih =>
    unfold insertSorted
    split
    · simp only [List.mem_cons, ih]
      tauto
    · simp only [List.mem_cons]

theorem mem_foldl_insertSorted {α : Type} (keyOf : α → String) (l : List α)
    (acc : List α) (x : α) :
    x ∈ l.foldl (insertSorted keyOf) acc ↔ x ∈ acc ∨ x ∈ l := by
  induction l generalizing acc with
  | nil => simp
  | cons a as ih =>
    simp only [List.foldl_cons, ih, mem_insertSorted, List.mem_cons]
    tauto

theorem mem_sortByKey {α : Type} (keyOf : α → String) (l : List α) (x : α) :
    x ∈ sortByKey keyOf l ↔ x ∈ l := by
  simp [sortByKey, mem_foldl_insertSorted]

/-- With no `--job-id` argument, the per-job match is never an explicit-id
match: it comes from the feed rule or the pattern rule, and the matched
identifier comes from the corresponding search. -/
theorem matchJob_none_inv (feedIds pats : List String) (job : Job)
    (k : MatchKind) (ident r : String)
    (h : matchJob none feedIds pats job = some (k, ident, r)) :
    (k = .byFeed ∧ firstFeedMatch feedIds job.name = some ident) ∨
    (k = .byPat ∧ ident ∈ pats) := by
  have h0 : matchJob none feedIds pats job
      = (match firstFeedMatch feedIds job.name with
        | some f => some (.byFeed, f, "feed ID " ++ f)
        | none =>
          match firstPatMatch pats job.name with
          | some p => some (.byPat, p, "pattern \x27" ++ p ++ "\x27")
          | none => none) := rfl
  rw [h0] at h
  cases hf : firstFeedMatch feedIds job.name with
  | some f =>
    rw [hf] at h
    simp only [Option.some.injEq, Prod.mk.injEq] at h
    exact Or.inl ⟨h.1.symm, congrArg some h.2.1⟩
  | none =>
    rw [hf] at h
    cases hp : firstPatMatch pats job.name with
    | some p =>
      rw [hp] at h
      simp only [Option.some.injEq, Prod.mk.injEq] at h
      refine Or.inr ⟨h.1.symm, ?_⟩
      rw [← h.2.1]
      exact List.mem_of_find?_eq_some hp
    | none =>
      rw [hp] at h
      simp at h

theorem cancelStep_feeds_shape (jia : Option String) (feedIds pats : List String)
    (acc : CancelAcc) (job : Job) :
    (cancelStep jia feedIds pats acc job).matchedFeeds = acc.matchedFeeds ∨
    ∃ x, (cancelStep jia feedIds pats acc job).matchedFeeds
        = addSet acc.matchedFeeds x := by
  unfold cancelStep
  split
  · exact Or.inl rfl
  · cases hm : matchJob jia feedIds pats job with
    | none => exact Or.inl rfl
    | some v =>
      obtain ⟨k, ident, r⟩ := v
      cases k <;> cases hsp : job.latestSpecId
      · exact Or.inl rfl
      · exact Or.inl rfl
      · exact Or.inr ⟨ident, rfl⟩
      · exact Or.inr ⟨ident, rfl⟩
      · exact Or.inl rfl
      · exact Or.inl rfl

/-- A status-filtered job whose first feed match is `f` records `f` into the
matched feed set (line 192 runs before the latest-spec check). -/
theorem cancelStep_feeds_add (feedIds pats : List String) (acc : CancelAcc)
    (j : Job) (f : String) (hst : j.status = "APPROVED")
    (hf : firstFeedMatch feedIds j.name = some f) :
    (cancelStep none feedIds pats acc j).matchedFeeds
      = addSet acc.matchedFeeds f := by
  have hmj : matchJob none feedIds pats j = some (.byFeed, f, "feed ID " ++ f) := by
    have h0 : matchJob none feedIds pats j
        = (match firstFeedMatch feedIds j.name with
          | some g => some (.byFeed, g, "feed ID " ++ g)
          | none =>
            match firstPatMatch pats j.name with
            | some p => some (.byPat, p, "pattern \x27" ++ p ++ "\x27")
            | none => none) := rfl
    rw [h0, hf]
  unfold cancelStep
  rw [if_neg (by simp [hst]), hmj]
  cases hsp : j.latestSpecId <;> rfl

theorem cancelStep_actions_no_f (feedIds pats : List String) (acc : CancelAcc)
    (j : Job) (f : String)
    (hone : j.status = "APPROVED" → firstFeedMatch feedIds j.name = some f →
      j.latestSpecId = none)
    (hfp : f ∉ pats)
    (hacc : ∀ a ∈ acc.actions, a.identifier ≠ f) :
    ∀ a ∈ (cancelStep none feedIds pats acc j).actions, a.identifier ≠ f := by
  unfold cancelStep
  by_cases hst : j.status ≠ "APPROVED"
  · rw [if_pos hst]
    exact hacc
  · rw [if_neg hst]
    push_neg at hst
    cases hm : matchJob none feedIds pats j with
    | none => exact hacc
    | some v =>
      obtain ⟨k, ident, r⟩ := v
      have hinv := matchJob_none_inv feedIds pats j k ident r hm
      rcases hinv with ⟨hk, hident⟩ | ⟨hk, hident⟩
      · subst hk
        by_cases hif : ident = f
        · subst hif
          rw [hone hst hident]
          exact hacc
        · cases hsp : j.latestSpecId with
          | none => exact hacc
          | some sid =>
            intro a ha
            rcases List.mem_append.mp ha with ha1 | ha2
            · exact hacc a ha1
            · rw [List.mem_singleton.mp ha2]
              exact hif
      · subst hk
        have hif : ident ≠ f := fun he => hfp (he ▸ hident)
        cases hsp : j.latestSpecId with
        | none => exact hacc
        | some sid =>
          intro a ha
          rcases List.mem_append.mp ha with ha1 | ha2
          · exact hacc a ha1
          · rw [List.mem_singleton.mp ha2]
            exact hif

theorem foldl_cancel_feeds_mono (jia : Option String) (feedIds pats : List String)
    (x : String) (jobs : List Job) :
    ∀ acc : CancelAcc, x ∈ acc.matchedFeeds →
      x ∈ (jobs.foldl (cancelStep jia feedIds pats) acc).matchedFeeds := by
  induction jobs with
  | nil => intro acc hx; simpa using hx
  | cons j js ih =>
    intro acc hx
    apply ih
    rcases cancelStep_feeds_shape jia feedIds pats acc j with h | ⟨y, h⟩
    · rw [h]; exact hx
    · rw [h]; exact (mem_addSet ..).mpr (Or.inr hx)

theorem foldl_cancel_feeds_mem (feedIds pats : List String) (j : Job) (f : String)
    (hst : j.status = "APPROVED") (hf : firstFeedMatch feedIds j.name = some f)
    (jobs : List Job) :
    ∀ acc : CancelAcc, j ∈ jobs →
      f ∈ (jobs.foldl (cancelStep none feedIds pats) acc).matchedFeeds := by
  induction jobs with
  | nil => intro acc hj; cases hj
  | cons a as ih =>
    intro acc hj
    rcases List.mem_cons.mp hj with heq | hj2
    · refine foldl_cancel_feeds_mono none feedIds pats f as
        (cancelStep none feedIds pats acc a) ?_
      rw [cancelStep_feeds_add feedIds pats acc a f (heq ▸ hst) (heq ▸ hf)]
      exact (mem_addSet ..).mpr (Or.inl rfl)
    · exact ih (cancelStep none feedIds pats acc a) hj2

theorem foldl_cancel_actions_no_f (feedIds pats : List String) (f : String)
    (hfp : f ∉ pats) (jobs : List Job) :
    ∀ acc : CancelAcc,
      (∀ j ∈ jobs, j.status = "APPROVED" →
        firstFeedMatch feedIds j.name = some f → j.latestSpecId = none) →
      (∀ a ∈ acc.actions, a.identifier ≠ f) →
      ∀ a ∈ (jobs.foldl (cancelStep none feedIds pats) acc).actions,
        a.identifier ≠ f := by
  induction jobs with
  | nil => intro acc _ hacc; simpa using hacc
  | cons jb js ih =>
    intro acc hall hacc
    exact ih (cancelStep none feedIds pats acc jb)
      (fun j2 hj2 => hall j2 (List.mem_cons_of_mem _ hj2))
      (cancelStep_actions_no_f feedIds pats acc jb f
        (hall jb (List.mem_cons_self ..)) hfp hacc)

theorem gjtc_feeds_mem (jobs : List Job) (feedIds pats : List String)
    (j : Job) (f : String) (hj : j ∈ jobs) (hst : j.status = "APPROVED")
    (hf : firstFeedMatch feedIds j.name = some f) :
    f ∈ (get_jobs_to_cancel jobs feedIds pats none).2.1 :=
  foldl_cancel_feeds_mem feedIds pats j f hst hf jobs ⟨[], [], []⟩ hj

theorem gjtc_actions_no_f (jobs : List Job) (feedIds pats : List String)
    (f : String)
    (hall : ∀ j ∈ jobs, j.status = "APPROVED" →
      firstFeedMatch feedIds j.name = some f → j.latestSpecId = none)
    (hfp : f ∉ pats) :
    ∀ a ∈ (get_jobs_to_cancel jobs feedIds pats none).1, a.identifier ≠ f := by
  intro a ha
  have ha2 : a ∈ (jobs.foldl (cancelStep none feedIds pats) ⟨[], [], []⟩).actions :=
    (mem_sortByKey ..).mp ha
  exact foldl_cancel_actions_no_f feedIds pats f hfp jobs ⟨[], [], []⟩ hall
    (by simp) a ha2

theorem execfold_feeds_mono (feedIds pats : List String) (jia : Option String)
    (x : String) (scopes : List (List Job)) :
    ∀ acc : ExecAcc, x ∈ acc.allMatchedFeeds →
      x ∈ (scopes.foldl (execStep feedIds pats jia) acc).allMatchedFeeds := by
  induction scopes with
  | nil => intro acc hx; simpa using hx
  | cons s ss ih =>
    intro acc hx
    apply ih
    exact (mem_unionSet ..).mpr (Or.inl hx)

theorem execfold_feeds_mem (feedIds pats : List String) (f : String)
    (scopes : List (List Job)) :
    ∀ acc : ExecAcc,
      (∃ jobs ∈ scopes, ∃ j ∈ jobs, j.status = "APPROVED" ∧
        firstFeedMatch feedIds j.name = some f) →
      f ∈ (scopes.foldl (execStep feedIds pats none) acc).allMatchedFeeds := by
  induction scopes with
  | nil => intro acc hex; simp at hex
  | cons s ss ih =>
    intro acc hex
    rcases hex with ⟨jobs, hjobs, j, hj, hst, hf⟩
    rcases List.mem_cons.mp hjobs with heq | hjobs2
    · refine execfold_feeds_mono feedIds pats none f ss
        (execStep feedIds pats none acc s) ?_
      refine (mem_unionSet ..).mpr (Or.inr ?_)
      exact heq ▸ gjtc_feeds_mem jobs feedIds pats j f hj hst hf
    · exact ih (execStep feedIds pats none acc s) ⟨jobs, hjobs2, j, hj, hst, hf⟩

theorem execfold_actions_no_f (feedIds pats : List String) (f : String)
    (hfp : f ∉ pats) (scopes : List (List Job)) :
    ∀ acc : ExecAcc,
      (∀ jobs ∈ scopes, ∀ j ∈ jobs, j.status = "APPROVED" →
        firstFeedMatch feedIds j.name = some f → j.latestSpecId = none) →
      (∀ a ∈ acc.allActions, a.identifier ≠ f) →
      ∀ a ∈ (scopes.foldl (execStep feedIds pats none) acc).allActions,
        a.identifier ≠ f := by
  induction scopes with
  | nil => intro acc _ hacc; simpa using hacc
  | cons s ss ih =>
    intro acc hall hacc
    refine ih (execStep feedIds pats none acc s)
      (fun jobs hj => hall jobs (List.mem_cons_of_mem _ hj)) ?_
    intro a ha
    rcases List.mem_append.mp ha with ha1 | ha2
    · exact hacc a ha1
    · exact gjtc_actions_no_f s feedIds pats f (hall s (List.mem_cons_self ..)) hfp a ha2

/-- Claim C4: for an APPROVED job that satisfies the explicit job-id rule and
also satisfies a feed-id or pattern substring rule, the recorded match is the
explicit-job-ID reason, never the identifier or pattern, and neither matched
set is touched; in general the first satisfied rule in precedence order wins
(a feed match is recorded even when a pattern would also match, the pattern
rule is never consulted) and a job contributes at most one recorded action. -/
theorem c4_match_precedence (jobIdArg : Option String) (feedIds pats : List String)
    (job : Job) (acc : CancelAcc) (jid : String)
    (hstatus : job.status = "APPROVED")
    (hjid : jobIdArg = some jid) (hne : jid ≠ "") (heq : job.id = jid)
    (hboth : (firstFeedMatch feedIds job.name).isSome = true ∨
      (firstPatMatch pats job.name).isSome = true) :
    matchJob jobIdArg feedIds pats job = some (MatchKind.byId, jid, "job ID " ++ jid)
    ∧ (cancelStep jobIdArg feedIds pats acc job).matchedFeeds = acc.matchedFeeds
    ∧ (cancelStep jobIdArg feedIds pats acc job).matchedPats = acc.matchedPats
    ∧ (∀ (jia : Option String) (j2 : Job) (f : String), jobIdRule jia j2 = none →
        firstFeedMatch feedIds j2.name = some f →
        matchJob jia feedIds pats j2 = some (MatchKind.byFeed, f, "feed ID " ++ f))
    ∧ (∀ (acc2 : CancelAcc) (j2 : Job),
        (cancelStep jobIdArg feedIds pats acc2 j2).actions = acc2.actions ∨
        ∃ a, (cancelStep jobIdArg feedIds pats acc2 j2).actions
            = acc2.actions ++ [a]) := by
  subst hjid
  have hrule : jobIdRule (some jid) job = some (jid, "job ID " ++ jid) := by
    simp [jobIdRule, hne, heq]
  have hmj : matchJob (some jid) feedIds pats job
      = some (MatchKind.byId, jid, "job ID " ++ jid) := by
    unfold matchJob
    rw [hrule]
  refine ⟨hmj, ?_, ?_, ?_, ?_⟩
  · unfold cancelStep
    rw [if_neg (by simp [hstatus]), hmj]
    cases hsp : job.latestSpecId <;> rfl
  · unfold cancelStep
    rw [if_neg (by simp [hstatus]), hmj]
    cases hsp : job.latestSpecId <;> rfl
  · intro jia j2 f h0 hf
    unfold matchJob
    rw [h0, hf]
  · intro acc2 j2
    unfold cancelStep
    by_cases hst2 : j2.status ≠ "APPROVED"
    · rw [if_pos hst2]
      exact Or.inl rfl
    · rw [if_neg hst2]
      cases hm2 : matchJob (some jid) feedIds pats j2 with
      | none => exact Or.inl rfl
      | some v =>
        obtain ⟨k, i2, r2⟩ := v
        cases k <;> cases hsp : j2.latestSpecId
        · exact Or.inl rfl
        · exact Or.inr ⟨_, rfl⟩
        · exact Or.inl rfl
        · exact Or.inr ⟨_, rfl⟩
        · exact Or.inl rfl
        · exact Or.inr ⟨_, rfl⟩

/-- Witness for C4: a job matching both the explicit id "42" and the feed id
"0xaaa" (and the pattern "contract"). -/
theorem c4_match_precedence_witness :
    matchJob (some "42") ["0xaaa"] ["contract"]
        ⟨"42", "feed 0xAAA contract", "APPROVED", some "s9"⟩
      = some (MatchKind.byId, "42", "job ID " ++ "42")
    ∧ (cancelStep (some "42") ["0xaaa"] ["contract"] ⟨[], [], []⟩
        ⟨"42", "feed 0xAAA contract", "APPROVED", some "s9"⟩).matchedFeeds
      = (⟨[], [], []⟩ : CancelAcc).matchedFeeds
    ∧ (cancelStep (some "42") ["0xaaa"] ["contract"] ⟨[], [], []⟩
        ⟨"42", "feed 0xAAA contract", "APPROVED", some "s9"⟩).matchedPats
      = (⟨[], [], []⟩ : CancelAcc).matchedPats
    ∧ (∀ (jia : Option String) (j2 : Job) (f : String), jobIdRule jia j2 = none →
        firstFeedMatch ["0xaaa"] j2.name = some f →
        matchJob jia ["0xaaa"] ["contract"] j2
          = some (MatchKind.byFeed, f, "feed ID " ++ f))
    ∧ (∀ (acc2 : CancelAcc) (j2 : Job),
        (cancelStep (some "42") ["0xaaa"] ["contract"] acc2 j2).actions
          = acc2.actions ∨
        ∃ a, (cancelStep (some "42") ["0xaaa"] ["contract"] acc2 j2).actions
          = acc2.actions ++ [a]) :=
  c4_match_precedence (some "42") ["0xaaa"] ["contract"]
    ⟨"42", "feed 0xAAA contract", "APPROVED", some "s9"⟩ ⟨[], [], []⟩ "42"
    rfl rfl (by decide) rfl (by decide)

/-- Claim C10: a feed id whose matching jobs all lack a latestSpecId is still
recorded in the matched sets (the sets are updated before the latest-spec
check skips the job), so it is absent from the final unmatched report of
`execute` even though no action for it ever enters the aggregated action
list. -/
theorem c10_matched_without_spec (scopes : List (List Job))
    (feedIds pats : List String) (f : String)
    (hex : ∃ jobs ∈ scopes, ∃ j ∈ jobs, j.status = "APPROVED" ∧
      firstFeedMatch feedIds j.name = some f ∧ j.latestSpecId = none)
    (hall : ∀ jobs ∈ scopes, ∀ j ∈ jobs, j.status = "APPROVED" →
      firstFeedMatch feedIds j.name = some f → j.latestSpecId = none)
    (hfp : f ∉ pats) :
    f ∈ (executeScopes scopes feedIds pats none).allMatchedFeeds
    ∧ f ∉ unmatchedReport feedIds
        (executeScopes scopes feedIds pats none).allMatchedFeeds
    ∧ ∀ a ∈ (executeScopes scopes feedIds pats none).allActions,
        a.identifier ≠ f := by
  have h1 : f ∈ (executeScopes scopes feedIds pats none).allMatchedFeeds := by
    refine execfold_feeds_mem feedIds pats f scopes ⟨[], [], []⟩ ?_
    obtain ⟨jobs, hjobs, j, hj, hst, hf, -⟩ := hex
    exact ⟨jobs, hjobs, j, hj, hst, hf⟩
  refine ⟨h1, ?_, ?_⟩
  · intro hmem
    have := (List.mem_filter.mp hmem).2
    exact (of_decide_eq_true this) h1
  · exact execfold_actions_no_f feedIds pats f hfp scopes ⟨[], [], []⟩ hall (by simp)

/-- Witness for C10: one scope with a single APPROVED job whose name contains
the feed id 0xaaa but which has no latest spec. -/
theorem c10_matched_without_spec_witness :
    "0xaaa" ∈ (executeScopes [[⟨"1", "feed 0xAAA contract", "APPROVED", none⟩]]
        ["0xaaa"] [] none).allMatchedFeeds
    ∧ "0xaaa" ∉ unmatchedReport ["0xaaa"]
        (executeScopes [[⟨"1", "feed 0xAAA contract", "APPROVED", none⟩]]
            ["0xaaa"] [] none).allMatchedFeeds
    ∧ ∀ a ∈ (executeScopes [[⟨"1", "feed 0xAAA contract", "APPROVED", none⟩]]
        ["0xaaa"] [] none).allActions, a.identifier ≠ "0xaaa" :=
  c10_matched_without_spec [[⟨"1", "feed 0xAAA contract", "APPROVED", none⟩]]
    ["0xaaa"] [] "0xaaa" (by decide) (by decide) (by decide)

end ClJobs
